import Mathlib

set_option maxHeartbeats 1000000

/-!
Shallow embedding of the evalfilter bytecode virtual machine
(`vm/vm.go`), its builtin functions (`environment/builtins.go`, present
as `src/unnamed/part_001`) and the runtime object model (the `object`
package; only its Array part, `src/unnamed/part_000`, is in the sources,
the scalar objects are modelled from the spec).

Modelling conventions, stated once:

* Go `int64` payloads are unbounded `Int`; arithmetic results are wrapped
  with `wrap64` exactly where Go's two's-complement wrap-around applies.
* Go `float64` payloads are modelled as rationals (`Rat`).  The claims
  proved below depend only on zero tests and on type tags, for which the
  rational model is exact; IEEE rounding, NaN and infinities are not
  modelled, and `math.Pow` / `math.Sqrt` are abstracted into `Externals`.
* Go interface values holding the shared globals `True`, `False`, `Null`
  (vm.go lines 25-32) are compared by pointer identity in the VM; the
  `canon` flag on `Obj.boolean` / `Obj.null` records whether a value is
  one of those globals, so pointer comparison against a global becomes a
  match on the payload together with `canon = true`.
* A Go runtime panic (out-of-range index, failed type assertion,
  division in `%` by zero) is the explicit outcome `panicked`, distinct
  from an `error` return value.
* Go standard-library functions used by the sources (`strconv` parsing,
  `strings.ToLower`/`ToUpper`, `regexp`) are abstracted as fields of an
  `Externals` record which the embedding is parametric over.
-/

/-- Runtime type tags, mirroring the object package's `Type` constants. -/
inductive ObjType where
  | INTEGER
  | FLOAT
  | STRING
  | BOOLEAN
  | NULL
  | ARRAY
deriving DecidableEq

/-- Runtime values of the engine (the `object` package's tagged union). -/
inductive Obj where
  | integer (v : Int)
  | float (v : Rat)
  | string (s : String)
  | boolean (b : Bool) (canon : Bool)
  | null (canon : Bool)
  | array (elems : List Obj)

/-- The VM's shared global `True` object (vm.go line 26). -/
def objTrue : Obj := Obj.boolean true true

/-- The VM's shared global `False` object (vm.go line 29). -/
def objFalse : Obj := Obj.boolean false true

/-- The VM's shared global `Null` object (vm.go line 32). -/
def objNull : Obj := Obj.null true

/-- Type tag of a value (the `Type()` methods of the object package;
Array's is in `src/unnamed/part_000`, the rest are modelled from the
spec's value model, §3). -/
def Obj.type : Obj → ObjType
  | .integer _ => .INTEGER
  | .float _ => .FLOAT
  | .string _ => .STRING
  | .boolean _ _ => .BOOLEAN
  | .null _ => .NULL
  | .array _ => .ARRAY

mutual

/-- Modelled from the spec: `inspect()` text form of a value (§3: integer
`3` → `"3"`, boolean `true` → `"true"`, array `[1,"x"]` → `"[1, x]"`).
The Array case is translated from `src/unnamed/part_000` (brackets around
the elements' inspect forms joined by `", "`); the scalar cases of the
object package are not under `src/`.  Strings inspect to their own text;
the float rendering (unspecified and unused by any claim) is the rational
`toString`. -/
def Obj.inspect : Obj → String
  | .integer v => toString v
  | .float v => toString v
  | .string s => s
  | .boolean b _ => if b then "true" else "false"
  | .null _ => "null"
  | .array es => "[" ++ String.intercalate ", " (inspectList es) ++ "]"

/-- Inspect forms of a list of values, in order (helper for arrays). -/
def inspectList : List Obj → List String
  | [] => []
  | o :: os => Obj.inspect o :: inspectList os

end

/-- Modelled from the spec: the `True()` truthiness methods of the object
package (§4.8: `Boolean(b)` → b; zero numbers, empty string, empty array
and `Null` are false; everything else true).  The Array case is
translated from `src/unnamed/part_000` (`len(Elements) != 0`). -/
def Obj.True : Obj → Bool
  | .integer v => v != 0
  | .float v => v != 0
  | .string s => s != ""
  | .boolean b _ => b
  | .null _ => false
  | .array es => es.length != 0

/-- Errors a run can fail with (the `fmt.Errorf` returns of vm.go and the
spec's §7 error kinds; payload strings are dropped). -/
inductive VMErr where
  | emptyProgram
  | missingReturn
  | stackUnderflow
  | divisionByZero
  | typeMismatch
  | unknownOperator
  | unsupportedNegation
  | unsupportedSquareRoot
  | functionNotFound
  | matchFunctionNotFound
  | fakeInstruction
  | unhandledOpcode
deriving DecidableEq

/-- Outcome of an operation that either pushes a value, returns a Go
error, or hits a Go runtime panic. -/
inductive Outcome where
  | ok (o : Obj)
  | err (e : VMErr)
  | panicked

/-- Go standard-library functions the sources call, abstracted as
parameters of the embedding: `strconv.ParseFloat` / `ParseInt`,
`strings.ToLower` / `ToUpper`, `regexp.Compile` (as a compiled matcher),
`math.Pow` and `math.Sqrt`. -/
structure Externals where
  parseFloat : String → Option Rat
  parseInt : String → Option Int
  goToLower : String → String
  goToUpper : String → String
  regexCompile : String → Option (String → Bool)
  mathPow : Rat → Rat → Rat
  mathSqrt : Rat → Rat

/-- Two's-complement wrap-around of Go `int64` arithmetic. -/
def wrap64 (x : Int) : Int := (x + 2 ^ 63) % 2 ^ 64 - 2 ^ 63

/-- Go float-to-integer conversion truncates toward zero. -/
def ratTrunc (x : Rat) : Int := if x < 0 then -Rat.floor (-x) else Rat.floor x

/-- Modelled from the spec: opcode numbering of the `code` package (not
under `src/`); the numbering follows the order of the spec's §4.4 table
and vm.go's dispatch, and no claim depends on the particular numbers. -/
def opNop : Nat := 0

/-- Opcode pushing its operand as an Integer (spec §4.4). -/
def opPush : Nat := 1

/-- Opcode pushing a constant-pool entry (spec §4.4). -/
def opConstant : Nat := 2

/-- Opcode looking a name up (spec §4.4). -/
def opLookup : Nat := 3

/-- Opcode setting a variable (spec §4.4). -/
def opSet : Nat := 4

/-- Addition opcode. -/
def opAdd : Nat := 5

/-- Subtraction opcode. -/
def opSub : Nat := 6

/-- Multiplication opcode. -/
def opMul : Nat := 7

/-- Division opcode. -/
def opDiv : Nat := 8

/-- Modulus opcode. -/
def opMod : Nat := 9

/-- Power opcode. -/
def opPower : Nat := 10

/-- Less-than opcode. -/
def opLess : Nat := 11

/-- Less-or-equal opcode. -/
def opLessEqual : Nat := 12

/-- Greater-than opcode. -/
def opGreater : Nat := 13

/-- Greater-or-equal opcode. -/
def opGreaterEqual : Nat := 14

/-- Equality opcode. -/
def opEqual : Nat := 15

/-- Inequality opcode. -/
def opNotEqual : Nat := 16

/-- Regular-expression match opcode. -/
def opMatches : Nat := 17

/-- Negated regular-expression match opcode. -/
def opNotMatches : Nat := 18

/-- Logical-and opcode. -/
def opAnd : Nat := 19

/-- Logical-or opcode. -/
def opOr : Nat := 20

/-- Array-building opcode. -/
def opArray : Nat := 21

/-- Array/string indexing opcode. -/
def opArrayIndex : Nat := 22

/-- Logical-negation opcode. -/
def opBang : Nat := 23

/-- Arithmetic-negation opcode. -/
def opMinus : Nat := 24

/-- Square-root opcode. -/
def opRoot : Nat := 25

/-- Push-canonical-true opcode. -/
def opTrue : Nat := 26

/-- Push-canonical-false opcode. -/
def opFalse : Nat := 27

/-- Return opcode. -/
def opReturn : Nat := 28

/-- Unconditional-jump opcode. -/
def opJump : Nat := 29

/-- Conditional-jump opcode. -/
def opJumpIfFalse : Nat := 30

/-- Function-call opcode. -/
def opCall : Nat := 31

/-- Internal-use opcode never meant to execute (vm.go line 330). -/
def opCodeSingleArg : Nat := 32

/-- Internal-use opcode never meant to execute (vm.go line 330). -/
def opFinal : Nat := 33

/-- Modelled from the spec: `code.Length` (the `code` package is not
under `src/`); per §4.4 exactly PUSH, CONSTANT, LOOKUP, ARRAY, JUMP,
JUMP_IF_FALSE and CALL carry a 16-bit operand, all else is one byte. -/
def codeLength (op : Nat) : Nat :=
  if op = opPush ∨ op = opConstant ∨ op = opLookup ∨ op = opArray ∨
      op = opJump ∨ op = opJumpIfFalse ∨ op = opCall then 3 else 1

/-- The host-registered function table of the environment: name to
native callable (spec §4.7). -/
def Funcs : Type := List (String × (List Obj → Obj))

/-- `nativeBoolToBooleanObject` (vm.go lines 890-895): a Go bool becomes
one of the two shared canonical Boolean objects. -/
def nativeBoolToBooleanObject (input : Bool) : Obj :=
  if input then objTrue else objFalse

/-- `evalIntegerInfixExpression` (vm.go lines 598-635): integer OP
integer.  `OpMod` with a zero right operand is a Go runtime panic (the
code divides without a check); `OpDiv` checks first and errors. -/
def evalIntegerInfixExpression (ext : Externals) (op : Nat) (left right : Obj) : Outcome :=
  match left, right with
  | .integer leftVal, .integer rightVal =>
    if op = opAdd then .ok (.integer (wrap64 (leftVal + rightVal)))
    else if op = opSub then .ok (.integer (wrap64 (leftVal - rightVal)))
    else if op = opMul then .ok (.integer (wrap64 (leftVal * rightVal)))
    else if op = opDiv then
      if rightVal = 0 then .err .divisionByZero
      else .ok (.integer (wrap64 (Int.tdiv leftVal rightVal)))
    else if op = opMod then
      if rightVal = 0 then .panicked
      else .ok (.integer (wrap64 (Int.tmod leftVal rightVal)))
    else if op = opPower then
      .ok (.integer (wrap64 (ratTrunc (ext.mathPow (leftVal : Rat) (rightVal : Rat)))))
    else if op = opLess then .ok (nativeBoolToBooleanObject (decide (leftVal < rightVal)))
    else if op = opLessEqual then .ok (nativeBoolToBooleanObject (decide (leftVal ≤ rightVal)))
    else if op = opGreater then .ok (nativeBoolToBooleanObject (decide (rightVal < leftVal)))
    else if op = opGreaterEqual then .ok (nativeBoolToBooleanObject (decide (rightVal ≤ leftVal)))
    else if op = opEqual then .ok (nativeBoolToBooleanObject (decide (leftVal = rightVal)))
    else if op = opNotEqual then .ok (nativeBoolToBooleanObject (decide (leftVal ≠ rightVal)))
    else .err .unknownOperator
  | _, _ => .panicked

/-- `evalFloatInfixExpression` (vm.go lines 638-675): float OP float.
`OpMod` truncates both sides to integers and panics when the truncated
right side is zero (Go `%` by zero); `OpDiv` checks the float itself. -/
def evalFloatInfixExpression (ext : Externals) (op : Nat) (left right : Obj) : Outcome :=
  match left, right with
  | .float leftVal, .float rightVal =>
    if op = opAdd then .ok (.float (leftVal + rightVal))
    else if op = opSub then .ok (.float (leftVal - rightVal))
    else if op = opMul then .ok (.float (leftVal * rightVal))
    else if op = opDiv then
      if rightVal = 0 then .err .divisionByZero
      else .ok (.float (leftVal / rightVal))
    else if op = opMod then
      if ratTrunc rightVal = 0 then .panicked
      else .ok (.float ((Int.tmod (ratTrunc leftVal) (ratTrunc rightVal) : Int) : Rat))
    else if op = opPower then .ok (.float (ext.mathPow leftVal rightVal))
    else if op = opLess then .ok (nativeBoolToBooleanObject (decide (leftVal < rightVal)))
    else if op = opLessEqual then .ok (nativeBoolToBooleanObject (decide (leftVal ≤ rightVal)))
    else if op = opGreater then .ok (nativeBoolToBooleanObject (decide (rightVal < leftVal)))
    else if op = opGreaterEqual then .ok (nativeBoolToBooleanObject (decide (rightVal ≤ leftVal)))
    else if op = opEqual then .ok (nativeBoolToBooleanObject (decide (leftVal = rightVal)))
    else if op = opNotEqual then .ok (nativeBoolToBooleanObject (decide (leftVal ≠ rightVal)))
    else .err .unknownOperator
  | _, _ => .panicked

/-- `evalFloatIntegerInfixExpression` (vm.go lines 678-715): float OP
int, with the right operand promoted to float first. -/
def evalFloatIntegerInfixExpression (ext : Externals) (op : Nat) (left right : Obj) : Outcome :=
  match left, right with
  | .float leftVal, .integer rv =>
    let rightVal : Rat := (rv : Rat)
    if op = opAdd then .ok (.float (leftVal + rightVal))
    else if op = opSub then .ok (.float (leftVal - rightVal))
    else if op = opMul then .ok (.float (leftVal * rightVal))
    else if op = opDiv then
      if rightVal = 0 then .err .divisionByZero
      else .ok (.float (leftVal / rightVal))
    else if op = opMod then
      if ratTrunc rightVal = 0 then .panicked
      else .ok (.float ((Int.tmod (ratTrunc leftVal) (ratTrunc rightVal) : Int) : Rat))
    else if op = opPower then .ok (.float (ext.mathPow leftVal rightVal))
    else if op = opLess then .ok (nativeBoolToBooleanObject (decide (leftVal < rightVal)))
    else if op = opLessEqual then .ok (nativeBoolToBooleanObject (decide (leftVal ≤ rightVal)))
    else if op = opGreater then .ok (nativeBoolToBooleanObject (decide (rightVal < leftVal)))
    else if op = opGreaterEqual then .ok (nativeBoolToBooleanObject (decide (rightVal ≤ leftVal)))
    else if op = opEqual then .ok (nativeBoolToBooleanObject (decide (leftVal = rightVal)))
    else if op = opNotEqual then .ok (nativeBoolToBooleanObject (decide (leftVal ≠ rightVal)))
    else .err .unknownOperator
  | _, _ => .panicked

/-- `evalIntegerFloatInfixExpression` (vm.go lines 718-755): int OP
float, with the left operand promoted to float first. -/
def evalIntegerFloatInfixExpression (ext : Externals) (op : Nat) (left right : Obj) : Outcome :=
  match left, right with
  | .integer lv, .float rightVal =>
    let leftVal : Rat := (lv : Rat)
    if op = opAdd then .ok (.float (leftVal + rightVal))
    else if op = opSub then .ok (.float (leftVal - rightVal))
    else if op = opMul then .ok (.float (leftVal * rightVal))
    else if op = opDiv then
      if rightVal = 0 then .err .divisionByZero
      else .ok (.float (leftVal / rightVal))
    else if op = opMod then
      if ratTrunc rightVal = 0 then .panicked
      else .ok (.float ((Int.tmod (ratTrunc leftVal) (ratTrunc rightVal) : Int) : Rat))
    else if op = opPower then .ok (.float (ext.mathPow leftVal rightVal))
    else if op = opLess then .ok (nativeBoolToBooleanObject (decide (leftVal < rightVal)))
    else if op = opLessEqual then .ok (nativeBoolToBooleanObject (decide (leftVal ≤ rightVal)))
    else if op = opGreater then .ok (nativeBoolToBooleanObject (decide (rightVal < leftVal)))
    else if op = opGreaterEqual then .ok (nativeBoolToBooleanObject (decide (rightVal ≤ leftVal)))
    else if op = opEqual then .ok (nativeBoolToBooleanObject (decide (leftVal = rightVal)))
    else if op = opNotEqual then .ok (nativeBoolToBooleanObject (decide (leftVal ≠ rightVal)))
    else .err .unknownOperator
  | _, _ => .panicked

/-- Lexicographic order on character lists by code point. -/
def charListLt : List Char → List Char → Bool
  | [], [] => false
  | [], _ :: _ => true
  | _ :: _, [] => false
  | c :: cs, d :: ds =>
    if c.toNat < d.toNat then true
    else if d.toNat < c.toNat then false
    else charListLt cs ds

/-- Go's `<` on strings compares the UTF-8 bytes lexicographically; on
valid Unicode text that order coincides with code-point lexicographic
order on the characters. -/
def goStrLt (l r : String) : Bool :=
  charListLt l.data r.data

/-- `evalStringInfixExpression` (vm.go lines 758-811): string OP string.
`OpMatches` / `OpNotMatches` look the `match` builtin up in the
environment's function table, invoke it, and re-canonicalise its
Boolean result; a non-Boolean result would fail Go's type assertion,
i.e. panic. -/
def evalStringInfixExpression (funcs : Funcs) (op : Nat) (left right : Obj) : Outcome :=
  match left, right with
  | .string l, .string r =>
    if op = opEqual then .ok (nativeBoolToBooleanObject (decide (l = r)))
    else if op = opNotEqual then .ok (nativeBoolToBooleanObject (decide (l ≠ r)))
    else if op = opGreaterEqual then .ok (nativeBoolToBooleanObject (!goStrLt l r))
    else if op = opGreater then .ok (nativeBoolToBooleanObject (goStrLt r l))
    else if op = opLessEqual then .ok (nativeBoolToBooleanObject (!goStrLt r l))
    else if op = opLess then .ok (nativeBoolToBooleanObject (goStrLt l r))
    else if op = opMatches then
      match List.lookup "match" funcs with
      | none => .err .matchFunctionNotFound
      | some f =>
        match f [Obj.string l, Obj.string r] with
        | .boolean b _ => .ok (if b then objTrue else objFalse)
        | _ => .panicked
    else if op = opNotMatches then
      match List.lookup "match" funcs with
      | none => .err .matchFunctionNotFound
      | some f =>
        match f [Obj.string l, Obj.string r] with
        | .boolean b _ => .ok (if b then objFalse else objTrue)
        | _ => .panicked
    else if op = opAdd then .ok (.string (l ++ r))
    else .err .unknownOperator
  | _, _ => .panicked

/-- `evalBooleanInfixExpression` (vm.go lines 814-825): wrap the two
operands' inspect forms as fresh String objects and reuse the string
implementation. -/
def evalBooleanInfixExpression (funcs : Funcs) (op : Nat) (left right : Obj) : Outcome :=
  evalStringInfixExpression funcs op (.string (Obj.inspect left)) (.string (Obj.inspect right))

/-- `executeBinaryOperation` (vm.go lines 537-595): dispatch on the pair
of type tags, in the source's case order — the five typed arms come
before the `OpAnd` / `OpOr` short-circuit cases, which come before the
Boolean arm, the type-mismatch arm and the unknown-operator default. -/
def executeBinaryOperation (ext : Externals) (funcs : Funcs) (op : Nat) (left right : Obj) : Outcome :=
  if left.type = .INTEGER ∧ right.type = .INTEGER then
    evalIntegerInfixExpression ext op left right
  else if left.type = .FLOAT ∧ right.type = .FLOAT then
    evalFloatInfixExpression ext op left right
  else if left.type = .FLOAT ∧ right.type = .INTEGER then
    evalFloatIntegerInfixExpression ext op left right
  else if left.type = .INTEGER ∧ right.type = .FLOAT then
    evalIntegerFloatInfixExpression ext op left right
  else if left.type = .STRING ∧ right.type = .STRING then
    evalStringInfixExpression funcs op left right
  else if op = opAnd then
    if !Obj.True left then .ok objFalse
    else if Obj.True right then .ok objTrue
    else .ok objFalse
  else if op = opOr then
    if Obj.True left then .ok objTrue
    else if Obj.True right then .ok objTrue
    else .ok objFalse
  else if left.type = .BOOLEAN ∧ right.type = .BOOLEAN then
    evalBooleanInfixExpression funcs op left right
  else if left.type ≠ right.type then .err .typeMismatch
  else .err .unknownOperator

/-- `executeBangOperator` (vm.go lines 828-845): the Go `switch operand`
compares the popped interface value by pointer identity against the
three shared globals; any other value — including Boolean or Null
objects allocated elsewhere (e.g. by record reflection) — falls to the
default arm and pushes the canonical False. -/
def executeBangOperator (operand : Obj) : Obj :=
  match operand with
  | .boolean true true => objFalse
  | .boolean false true => objTrue
  | .null true => objTrue
  | _ => objFalse

/-- `executeMinusOperator` (vm.go lines 848-866). -/
def executeMinusOperator (operand : Obj) : Outcome :=
  match operand with
  | .integer v => .ok (.integer (wrap64 (-v)))
  | .float v => .ok (.float (-v))
  | _ => .err .unsupportedNegation

/-- `executeSquareRoot` (vm.go lines 869-887). -/
def executeSquareRoot (ext : Externals) (operand : Obj) : Outcome :=
  match operand with
  | .integer v => .ok (.float (ext.mathSqrt (v : Rat)))
  | .float v => .ok (.float (ext.mathSqrt v))
  | _ => .err .unsupportedSquareRoot

/-- UTF-8 encoding of one character, byte values as naturals.  Go
strings are the UTF-8 bytes of their text; the model's strings are valid
Unicode, for which this is exactly Go's byte representation. -/
def utf8EncodeChar (c : Char) : List Nat :=
  let v := c.toNat
  if v < 0x80 then [v]
  else if v < 0x800 then [0xC0 + v / 0x40, 0x80 + v % 0x40]
  else if v < 0x10000 then
    [0xE0 + v / 0x1000, 0x80 + v / 0x40 % 0x40, 0x80 + v % 0x40]
  else
    [0xF0 + v / 0x40000, 0x80 + v / 0x1000 % 0x40, 0x80 + v / 0x40 % 0x40, 0x80 + v % 0x40]

/-- The UTF-8 bytes underlying a string (Go's `len` and `s[i]` work on
these). -/
def stringBytes (s : String) : List Nat :=
  s.data.flatMap utf8EncodeChar

/-- Go's `string(b)` on a byte: the byte value is reinterpreted as a
code point and re-encoded, which at a multi-byte boundary yields a
"one-code-unit" string that differs from the original bytes. -/
def byteToGoString (b : Nat) : String :=
  String.mk [Char.ofNat b]

/-- `executeIndexExpression` (vm.go lines 936-974).  The string branch
checks `idx < 0 || int(idx) > len(str)` — strictly greater, not ≥ — so
`idx = len(str)` passes the check and the byte access `str[idx]` is a Go
runtime panic.  The array branch checks against `len-1` inclusively and
is safe. -/
def executeIndexExpression (left index : Obj) : Outcome :=
  if left.type ≠ .ARRAY ∧ left.type ≠ .STRING then .err .typeMismatch
  else if index.type ≠ .INTEGER then .err .typeMismatch
  else
    match index with
    | .integer idx =>
      if left.type = .STRING then
        match left with
        | .string s =>
          let str := stringBytes (Obj.inspect (Obj.string s))
          if idx < 0 ∨ (str.length : Int) < idx then .ok objNull
          else
            match str.get? idx.toNat with
            | some b => .ok (.string (byteToGoString b))
            | none => .panicked
        | _ => .panicked
      else
        match left with
        | .array elements =>
          let mx : Int := (elements.length : Int) - 1
          if idx < 0 ∨ mx < idx then .ok objNull
          else
            match elements.get? idx.toNat with
            | some o => .ok o
            | none => .panicked
        | _ => .panicked
    | _ => .panicked

/-- `strings.TrimPrefix(name, "$")` as used by `lookup` (vm.go line
903): remove one leading `$` when present (the prefix is a single
character, so this is a head test on the character list). -/
def stripDollar (name : String) : String :=
  match name.data with
  | c :: rest => if c = '$' then String.mk rest else name
  | [] => name

/-- Modelled from the spec: the environment's variable table (the
`environment` package is not under `src/`); `Get` is association-list
lookup (§4.7). -/
def Vars : Type := List (String × Obj)

/-- Modelled from the spec: `environment.Set` replaces or appends a
binding (§4.7). -/
def environmentSet (vars : Vars) (k : String) (v : Obj) : Vars :=
  match vars with
  | [] => [(k, v)]
  | (k₁, v₁) :: rest =>
    if k₁ = k then (k, v) :: rest else (k₁, v₁) :: environmentSet rest k v

/-- The reflected view of the input record: field name to converted
value.  Modelled from the spec (§4.8 record reflection): `inspectObject`
(vm.go lines 360-448) walks the record with Go reflection, which the
embedding abstracts by taking the record already in reflected form.
Scalar conversions allocate fresh (non-canonical) Boolean and Null
objects, which is why reflected booleans carry `canon = false`. -/
def Record : Type := List (String × Obj)

/-- `lookup` (vm.go lines 898-933): strip a single leading `$`, consult
the environment's variables first, then — materialising the field cache
from the record when the cache is empty — the record's fields, and
finally fall back to the shared global Null.  Returns the pushed value
together with the possibly-updated field cache. -/
def lookup (vars : Vars) (fields : Record) (record : Record) (name : String) :
    Obj × Record :=
  let n := stripDollar name
  match List.lookup n vars with
  | some val => (val, fields)
  | none =>
    let fields₁ := if fields.length = 0 then record else fields
    match List.lookup n fields₁ with
    | some cached => (cached, fields₁)
    | none => (objNull, fields₁)

/-- `fnFloat` (builtins, `src/unnamed/part_001` lines 30-46): exactly
one argument or Null; parse the inspect form as a float. -/
def fnFloat (ext : Externals) (args : List Obj) : Obj :=
  if args.length ≠ 1 then .null false
  else
    match args with
    | [a] =>
      match ext.parseFloat (Obj.inspect a) with
      | none => .null false
      | some i => .float i
    | _ => .null false

/-- `fnInt` (builtins lines 53-69): exactly one argument or Null; parse
the inspect form as a base-10 integer. -/
def fnInt (ext : Externals) (args : List Obj) : Obj :=
  if args.length ≠ 1 then .null false
  else
    match args with
    | [a] =>
      match ext.parseInt (Obj.inspect a) with
      | none => .null false
      | some i => .integer i
    | _ => .null false

/-- `fnLen` (builtins lines 83-102): arrays report their element count,
everything else the rune count of its inspect form (for the model's
valid-Unicode strings, the character count). -/
def fnLen (args : List Obj) : Obj :=
  if args.length ≠ 1 then .null false
  else
    match args with
    | [a] =>
      match a with
      | .array elements => .integer (elements.length : Int)
      | _ => .integer ((Obj.inspect a).length : Int)
    | _ => .null false

/-- `fnLower` (builtins lines 108-121). -/
def fnLower (ext : Externals) (args : List Obj) : Obj :=
  if args.length ≠ 1 then .null false
  else
    match args with
    | [a] => .string (ext.goToLower (Obj.inspect a))
    | _ => .null false

/-- `fnUpper` (builtins lines 218-230). -/
def fnUpper (ext : Externals) (args : List Obj) : Obj :=
  if args.length ≠ 1 then .null false
  else
    match args with
    | [a] => .string (ext.goToUpper (Obj.inspect a))
    | _ => .null false

/-- `fnString` (builtins lines 167-176). -/
def fnString (args : List Obj) : Obj :=
  if args.length ≠ 1 then .null false
  else
    match args with
    | [a] => .string (Obj.inspect a)
    | _ => .null false

/-- The complete `unicode.IsSpace` character set used by Go's
`strings.TrimSpace`: ASCII whitespace, NEL, NBSP and the Unicode
White_Space code points. -/
def goSpaceCodes : List Nat :=
  [0x09, 0x0a, 0x0b, 0x0c, 0x0d, 0x20, 0x85, 0xa0, 0x1680,
   0x2000, 0x2001, 0x2002, 0x2003, 0x2004, 0x2005, 0x2006, 0x2007,
   0x2008, 0x2009, 0x200a, 0x2028, 0x2029, 0x202f, 0x205f, 0x3000]

/-- Whether a character is whitespace for `strings.TrimSpace`. -/
def goIsSpace (c : Char) : Bool :=
  goSpaceCodes.contains c.toNat

/-- `strings.TrimSpace`: strip leading and trailing whitespace. -/
def goTrimSpace (s : String) : String :=
  String.mk (((s.data.dropWhile goIsSpace).reverse.dropWhile goIsSpace).reverse)

/-- `strings.Split(str, "\n")` specialised to the one-character
newline separator: the list of chunks between newlines, with the empty
string as the sole chunk of an empty input. -/
def splitNewlineAux : List Char → List Char → List String
  | [], acc => [String.mk acc.reverse]
  | c :: cs, acc =>
    if c = '\n' then String.mk acc.reverse :: splitNewlineAux cs []
    else splitNewlineAux cs (c :: acc)

/-- Split a string on newline characters, Go `strings.Split` style. -/
def goSplitNewline (s : String) : List String :=
  splitNewlineAux s.data []

/-- `fnTrim` (builtins lines 179-185): concatenate all arguments'
inspect forms, then trim. -/
def fnTrim (args : List Obj) : Obj :=
  .string (goTrimSpace (args.foldl (fun str e => str ++ Obj.inspect e) ""))

/-- `fnType` (builtins lines 188-204): the lower-cased type tag.  The
tag strings of the object package are modelled from the spec (§6:
lower-casing yields "integer", "float", "string", "boolean", "array",
"null"). -/
def fnType (args : List Obj) : Obj :=
  if args.length ≠ 1 then .null false
  else
    match args with
    | [a] =>
      .string (match a.type with
        | .INTEGER => "integer"
        | .FLOAT => "float"
        | .STRING => "string"
        | .BOOLEAN => "boolean"
        | .NULL => "null"
        | .ARRAY => "array")
    | _ => .null false

/-- `fnPrint` (builtins lines 207-212): writing to stdout is not
modelled; the return value is always `Integer(0)`. -/
def fnPrint (_args : List Obj) : Obj :=
  .integer 0

/-- `fnMatch` (builtins lines 124-164): wrong argument count yields a
fresh `Boolean(false)`; an invalid pattern (the abstract compiler
returns none) yields `Boolean(false)`; otherwise split the haystack's
inspect form on newlines, trim each line, and report whether any line
matches.  The process-wide compiled-regex cache is semantically
transparent for a fixed compile function and is not modelled. -/
def fnMatch (ext : Externals) (args : List Obj) : Obj :=
  if args.length ≠ 2 then .boolean false false
  else
    match args with
    | [a, b] =>
      let str := Obj.inspect a
      let reg := Obj.inspect b
      match ext.regexCompile reg with
      | none => .boolean false false
      | some r =>
        if (goSplitNewline str).any (fun s => r (goTrimSpace s)) then .boolean true false
        else .boolean false false
    | _ => .boolean false false

/-- Full VM state threaded through the run loop (vm.go's `VM` struct
plus the instruction pointer handled separately): constant pool,
bytecode, stack (top first), environment variables and functions, the
lazily-built field cache, and the record in reflected form. -/
structure VMState where
  constants : List Obj
  bytecode : List Nat
  stack : List Obj
  vars : Vars
  funcs : Funcs
  fields : Record
  record : Record

/-- Result of a run (vm.go `Run`): a returned value, a Go error, a Go
runtime panic, or fuel exhaustion (a model artifact standing for runs
that have not terminated yet; programs can loop forever). -/
inductive RunResult where
  | returned (o : Obj)
  | errored (e : VMErr)
  | panicked
  | outOfFuel

/-- One dispatch either continues at a new state and instruction
pointer, or halts the run. -/
inductive StepRes where
  | next (st : VMState) (ip : Nat)
  | halt (r : RunResult)

/-- Big-endian 16-bit operand read, `binary.BigEndian.Uint16` on the
slice `bytecode[i : i+2]`; a short slice is a Go runtime panic, reported
as `none`. -/
def readUint16 (bc : List Nat) (i : Nat) : Option Nat :=
  match bc.get? i, bc.get? (i + 1) with
  | some hi, some lo => some (hi % 256 * 256 + lo % 256)
  | _, _ => none

/-- Whether an opcode is one of the sixteen binary-operation cases of
vm.go line 182. -/
def isBinOp (op : Nat) : Bool :=
  op = opAdd ∨ op = opSub ∨ op = opMul ∨ op = opDiv ∨ op = opMod ∨
    op = opPower ∨ op = opLess ∨ op = opLessEqual ∨ op = opGreater ∨
    op = opGreaterEqual ∨ op = opEqual ∨ op = opNotEqual ∨
    op = opMatches ∨ op = opNotMatches ∨ op = opAnd ∨ op = opOr

/-- One iteration of vm.go's dispatch switch (lines 138-337), given the
decoded opcode and its operand (0 for one-byte opcodes).  Pops happen
one at a time in the source; popping from a stack with too few elements
is the `StackUnderflow` error.  Out-of-range constant-pool reads are Go
slice-index panics.  Jumps set the next instruction pointer to the
operand (the source subtracts and re-adds the opcode length). -/
def execStep (ext : Externals) (st : VMState) (ip : Nat) (op opArg : Nat) : StepRes :=
  let opLen := codeLength op
  if op = opNop then .next st (ip + opLen)
  else if op = opPush then
    .next { st with stack := Obj.integer (Int.ofNat opArg) :: st.stack } (ip + opLen)
  else if op = opConstant then
    match st.constants.get? opArg with
    | some c => .next { st with stack := c :: st.stack } (ip + opLen)
    | none => .halt .panicked
  else if op = opLookup then
    match st.constants.get? opArg with
    | none => .halt .panicked
    | some c =>
      let p := lookup st.vars st.fields st.record (Obj.inspect c)
      .next { st with stack := p.1 :: st.stack, fields := p.2 } (ip + opLen)
  else if op = opSet then
    match st.stack with
    | name :: val :: rest =>
      .next { st with stack := rest,
                      vars := environmentSet st.vars (Obj.inspect name) val } (ip + opLen)
    | _ => .halt (.errored .stackUnderflow)
  else if isBinOp op then
    match st.stack with
    | right :: left :: rest =>
      match executeBinaryOperation ext st.funcs op left right with
      | .ok o => .next { st with stack := o :: rest } (ip + opLen)
      | .err e => .halt (.errored e)
      | .panicked => .halt .panicked
    | _ => .halt (.errored .stackUnderflow)
  else if op = opArray then
    if opArg ≤ st.stack.length then
      .next { st with stack := Obj.array (st.stack.take opArg).reverse :: st.stack.drop opArg }
        (ip + opLen)
    else .halt (.errored .stackUnderflow)
  else if op = opArrayIndex then
    match st.stack with
    | index :: left :: rest =>
      match executeIndexExpression left index with
      | .ok o => .next { st with stack := o :: rest } (ip + opLen)
      | .err e => .halt (.errored e)
      | .panicked => .halt .panicked
    | _ => .halt (.errored .stackUnderflow)
  else if op = opBang then
    match st.stack with
    | operand :: rest =>
      .next { st with stack := executeBangOperator operand :: rest } (ip + opLen)
    | _ => .halt (.errored .stackUnderflow)
  else if op = opMinus then
    match st.stack with
    | operand :: rest =>
      match executeMinusOperator operand with
      | .ok o => .next { st with stack := o :: rest } (ip + opLen)
      | .err e => .halt (.errored e)
      | .panicked => .halt .panicked
    | _ => .halt (.errored .stackUnderflow)
  else if op = opRoot then
    match st.stack with
    | operand :: rest =>
      match executeSquareRoot ext operand with
      | .ok o => .next { st with stack := o :: rest } (ip + opLen)
      | .err e => .halt (.errored e)
      | .panicked => .halt .panicked
    | _ => .halt (.errored .stackUnderflow)
  else if op = opTrue then .next { st with stack := objTrue :: st.stack } (ip + opLen)
  else if op = opFalse then .next { st with stack := objFalse :: st.stack } (ip + opLen)
  else if op = opReturn then
    match st.stack with
    | result :: _ => .halt (.returned result)
    | [] => .halt (.errored .stackUnderflow)
  else if op = opJump then .next st opArg
  else if op = opJumpIfFalse then
    match st.stack with
    | condition :: rest =>
      if !Obj.True condition then .next { st with stack := rest } opArg
      else .next { st with stack := rest } (ip + opLen)
    | _ => .halt (.errored .stackUnderflow)
  else if op = opCall then
    match st.stack with
    | fName :: rest =>
      if opArg ≤ rest.length then
        match List.lookup (Obj.inspect fName) st.funcs with
        | none => .halt (.errored .functionNotFound)
        | some f =>
          .next { st with stack := f (rest.take opArg).reverse :: rest.drop opArg } (ip + opLen)
      else .halt (.errored .stackUnderflow)
    | [] => .halt (.errored .stackUnderflow)
  else if op = opCodeSingleArg ∨ op = opFinal then .halt (.errored .fakeInstruction)
  else .halt (.errored .unhandledOpcode)

/-- The fetch-decode-execute loop of `Run` (vm.go lines 111-340,
351): while the instruction pointer is inside the bytecode, fetch the
opcode, read its 16-bit operand when its length is more than one byte
(a truncated operand is a Go slice panic), dispatch, and continue;
falling off the end of the bytecode is the missing-return error.  The
`fuel` bound makes the possibly-nonterminating loop a total function. -/
def runLoop (ext : Externals) (fuel : Nat) (st : VMState) (ip : Nat) : RunResult :=
  match st.bytecode.get? ip with
  | none => .errored .missingReturn
  | some op =>
    match fuel with
    | 0 => .outOfFuel
    | fuel + 1 =>
      if codeLength op > 1 then
        match readUint16 st.bytecode (ip + 1) with
        | none => .panicked
        | some opArg =>
          match execStep ext st ip op opArg with
          | .next st₁ ip₁ => runLoop ext fuel st₁ ip₁
          | .halt r => r
      else
        match execStep ext st ip op 0 with
        | .next st₁ ip₁ => runLoop ext fuel st₁ ip₁
        | .halt r => r

/-- `Run` (vm.go lines 87-352): an empty bytecode program is rejected
before anything executes, the field cache starts empty, and execution
begins at instruction pointer 0. -/
def Run (ext : Externals) (fuel : Nat) (st : VMState) : RunResult :=
  if st.bytecode.length < 1 then .errored .emptyProgram
  else runLoop ext fuel { st with fields := [] } 0

/-- Whether a value, if it is a Boolean at all, is one of the two
canonical shared Boolean objects (used to state the canonical-boolean
invariant; non-Booleans satisfy it vacuously). -/
def boolCanon : Obj → Bool
  | .boolean _ c => c
  | _ => true

/-- The five operand type pairs intercepted by the typed dispatch arms
of `executeBinaryOperation` before the `OpAnd` / `OpOr` cases are
reached. -/
def typedPair (l r : Obj) : Bool :=
  decide ((l.type = .INTEGER ∧ r.type = .INTEGER) ∨
    (l.type = .FLOAT ∧ r.type = .FLOAT) ∨
    (l.type = .FLOAT ∧ r.type = .INTEGER) ∨
    (l.type = .INTEGER ∧ r.type = .FLOAT) ∨
    (l.type = .STRING ∧ r.type = .STRING))

/-- A sample instantiation of the external-function parameters, used
only to state and evaluate closed theorems at concrete inputs. -/
def ext0 : Externals where
  parseFloat := fun _ => none
  parseInt := fun _ => none
  goToLower := fun s => s
  goToUpper := fun s => s
  regexCompile := fun _ => none
  mathPow := fun _ _ => 0
  mathSqrt := fun _ => 0

/-- A sample instantiation whose regex compiler accepts exactly the
pattern "pat", matching exactly the text "hit" (for concrete
evaluations of the `match` builtin). -/
def ext1 : Externals where
  parseFloat := fun _ => none
  parseInt := fun _ => none
  goToLower := fun s => s
  goToUpper := fun s => s
  regexCompile := fun p => if p = "pat" then some (fun s => s = "hit") else none
  mathPow := fun _ _ => 0
  mathSqrt := fun _ => 0

/-- Hand-assembled bytecode of the script `return 10 / 0;` (spec §4.3
lets small integer literals be PUSH immediates): push 10, push 0,
divide, return. -/
def div0State : VMState where
  constants := []
  bytecode := [opPush, 0, 10, opPush, 0, 0, opDiv, opReturn]
  stack := []
  vars := []
  funcs := []
  fields := []
  record := []

/-- A one-instruction program that returns the canonical True already
sitting on the stack (for concrete boundary evaluations). -/
def returnProg : VMState where
  constants := []
  bytecode := [opReturn]
  stack := [objTrue]
  vars := []
  funcs := []
  fields := []
  record := []

/-- C2: out-of-range array indices push Null; out-of-range string
indices push Null and in-range ones a one-byte string — except that at
an index equal to the string's byte length the bounds check
`idx < 0 || int(idx) > len(str)` passes and the byte access `str[idx]`
is a Go runtime panic, contradicting the claim that indexing a string
at exactly its length yields Null.  Evaluations at the failing input
(index 3 into "abc") and at neighbouring inputs. -/
theorem C2_string_index_at_length_panics :
    executeIndexExpression (Obj.string "abc") (Obj.integer 3) = .panicked ∧
    executeIndexExpression (Obj.string "abc") (Obj.integer 4) = .ok objNull ∧
    executeIndexExpression (Obj.string "abc") (Obj.integer (-1)) = .ok objNull ∧
    executeIndexExpression (Obj.string "abc") (Obj.integer 1) = .ok (Obj.string "b") ∧
    executeIndexExpression (Obj.array [objTrue]) (Obj.integer 1) = .ok objNull ∧
    executeIndexExpression (Obj.array [objTrue]) (Obj.integer (-1)) = .ok objNull :=
  ⟨rfl, rfl, rfl, rfl, rfl, rfl⟩

/-- C3 counterexample: the BANG handler compares the operand by pointer
identity; a `Boolean(false)` object that is not the shared canonical
False (e.g. one built by record reflection) falls to the default arm
and pushes False, not True as the claim requires. -/
theorem C3_counterexample :
    executeBangOperator (Obj.boolean false false) = objFalse ∧ objFalse ≠ objTrue := by
  refine ⟨rfl, fun h => ?_⟩
  simp [objFalse, objTrue] at h

/-- C3 amended: BANG pushes False for the canonical True, True for the
canonical False, True for the canonical Null, and False for every other
operand — including Boolean and Null objects that are not the VM's
shared instances, such as those produced by record reflection. -/
theorem C3_amended :
    executeBangOperator objTrue = objFalse ∧
    executeBangOperator objFalse = objTrue ∧
    executeBangOperator objNull = objTrue ∧
    (∀ o : Obj, o ≠ objTrue → o ≠ objFalse → o ≠ objNull →
      executeBangOperator o = objFalse) ∧
    (∀ b : Bool, executeBangOperator (Obj.boolean b false) = objFalse) ∧
    executeBangOperator (Obj.null false) = objFalse := by
  refine ⟨rfl, rfl, rfl, ?_, ?_, rfl⟩
  · intro o h₁ h₂ h₃
    match o with
    | .integer v => rfl
    | .float v => rfl
    | .string s => rfl
    | .array es => rfl
    | .null false => rfl
    | .null true => exact absurd rfl h₃
    | .boolean b false => cases b <;> rfl
    | .boolean true true => exact absurd rfl h₁
    | .boolean false true => exact absurd rfl h₂
  · intro b; cases b <;> rfl

/-- C3 witness: the amended theorem applied at the concrete
non-canonical operand `Boolean(false)`. -/
theorem C3_amended_witness :
    executeBangOperator (Obj.boolean false false) = objFalse := by
  refine C3_amended.2.2.2.1 (Obj.boolean false false) ?_ ?_ ?_
  · intro h; simp [objTrue] at h
  · intro h; simp [objFalse] at h
  · intro h; simp [objNull] at h

/-- C4: division with a zero (or zero-promoted) right operand is the
DivisionByZero error in all four numeric dispatch arms, a non-zero
right operand yields an Integer for Integer/Integer and a Float
whenever a Float is involved, and the hand-assembled program for
`return 10 / 0;` fails with DivisionByZero. -/
theorem C4_division_by_zero :
    (∀ (ext : Externals) (l : Int),
      evalIntegerInfixExpression ext opDiv (.integer l) (.integer 0) =
        .err .divisionByZero) ∧
    (∀ (ext : Externals) (l r : Int), r ≠ 0 →
      evalIntegerInfixExpression ext opDiv (.integer l) (.integer r) =
        .ok (.integer (wrap64 (Int.tdiv l r)))) ∧
    (∀ (ext : Externals) (l : Rat),
      evalFloatInfixExpression ext opDiv (.float l) (.float 0) =
        .err .divisionByZero) ∧
    (∀ (ext : Externals) (l r : Rat), r ≠ 0 →
      evalFloatInfixExpression ext opDiv (.float l) (.float r) =
        .ok (.float (l / r))) ∧
    (∀ (ext : Externals) (l : Rat),
      evalFloatIntegerInfixExpression ext opDiv (.float l) (.integer 0) =
        .err .divisionByZero) ∧
    (∀ (ext : Externals) (l : Rat) (r : Int), r ≠ 0 →
      evalFloatIntegerInfixExpression ext opDiv (.float l) (.integer r) =
        .ok (.float (l / (r : Rat)))) ∧
    (∀ (ext : Externals) (l : Int),
      evalIntegerFloatInfixExpression ext opDiv (.integer l) (.float 0) =
        .err .divisionByZero) ∧
    (∀ (ext : Externals) (l : Int) (r : Rat), r ≠ 0 →
      evalIntegerFloatInfixExpression ext opDiv (.integer l) (.float r) =
        .ok (.float ((l : Rat) / r))) ∧
    (∀ ext : Externals, Run ext 10 div0State = .errored .divisionByZero) := by
  refine ⟨fun ext l => rfl, ?_, fun ext l => ?_, ?_, fun ext l => ?_, ?_, fun ext l => ?_, ?_,
    fun ext => rfl⟩
  · intro ext l r h
    simp [evalIntegerInfixExpression, opDiv, opAdd, opSub, opMul, h]
  · simp [evalFloatInfixExpression, opDiv, opAdd, opSub, opMul]
  · intro ext l r h
    simp [evalFloatInfixExpression, opDiv, opAdd, opSub, opMul, h]
  · simp [evalFloatIntegerInfixExpression, opDiv, opAdd, opSub, opMul]
  · intro ext l r h
    simp [evalFloatIntegerInfixExpression, opDiv, opAdd, opSub, opMul, h]
  · simp [evalIntegerFloatInfixExpression, opDiv, opAdd, opSub, opMul]
  · intro ext l r h
    simp [evalIntegerFloatInfixExpression, opDiv, opAdd, opSub, opMul, h]

/-- C4 witness: the division conjuncts applied at concrete non-zero
divisors. -/
theorem C4_witness :
    evalIntegerInfixExpression ext0 opDiv (.integer 10) (.integer 2) =
      .ok (.integer (wrap64 (Int.tdiv 10 2))) ∧
    evalFloatInfixExpression ext0 opDiv (.float 1) (.float 2) =
      .ok (.float ((1 : Rat) / 2)) ∧
    evalFloatIntegerInfixExpression ext0 opDiv (.float 1) (.integer 2) =
      .ok (.float ((1 : Rat) / ((2 : Int) : Rat))) ∧
    evalIntegerFloatInfixExpression ext0 opDiv (.integer 1) (.float 2) =
      .ok (.float (((1 : Int) : Rat) / 2)) :=
  ⟨C4_division_by_zero.2.1 ext0 10 2 (by decide),
   C4_division_by_zero.2.2.2.1 ext0 1 2 (by norm_num),
   C4_division_by_zero.2.2.2.2.2.1 ext0 1 2 (by decide),
   C4_division_by_zero.2.2.2.2.2.2.2.1 ext0 1 2 (by norm_num)⟩

/-- C10: every one-argument builtin returns a (fresh) Null on any other
argument count, `match` returns a fresh `Boolean(false)` unless given
exactly two arguments, `trim` and `print` accept any argument count
(`trim` of no arguments is the empty String, `print` always returns
`Integer(0)`), and none of them can raise an error into the VM (each is
a total function into values). -/
theorem C10_builtin_arity :
    ∀ (ext : Externals) (args : List Obj),
      (args.length ≠ 1 →
        fnFloat ext args = .null false ∧ fnInt ext args = .null false ∧
        fnLen args = .null false ∧ fnLower ext args = .null false ∧
        fnUpper ext args = .null false ∧ fnString args = .null false ∧
        fnType args = .null false) ∧
      (args.length ≠ 2 → fnMatch ext args = .boolean false false) ∧
      fnTrim [] = .string "" ∧ (∃ s, fnTrim args = .string s) ∧
      fnPrint args = .integer 0 := by
  intro ext args
  refine ⟨fun h => ?_, fun h => ?_, rfl, ⟨_, rfl⟩, rfl⟩
  · exact ⟨by simp [fnFloat, h], by simp [fnInt, h], by simp [fnLen, h],
      by simp [fnLower, h], by simp [fnUpper, h], by simp [fnString, h],
      by simp [fnType, h]⟩
  · simp [fnMatch, h]

/-- C10 witness: the arity conjuncts applied at the empty argument
list. -/
theorem C10_witness :
    fnFloat ext0 [] = .null false ∧ fnMatch ext0 [] = .boolean false false := by
  have h := C10_builtin_arity ext0 []
  exact ⟨(h.1 (by decide)).1, h.2.1 (by decide)⟩

/-- C5: name resolution strips one leading `$`, then consults the
environment's variables (which therefore shadow record fields of the
same name, whatever the record holds), then the field cache —
materialised from the record exactly when the cache is empty — and
finally falls back to the shared Null. -/
theorem C5_lookup_order :
    ∀ (vars : Vars) (fields record : Record) (name : String),
      (∀ v, List.lookup (stripDollar name) vars = some v →
        lookup vars fields record name = (v, fields)) ∧
      (List.lookup (stripDollar name) vars = none → fields = [] →
        lookup vars fields record name =
          (match List.lookup (stripDollar name) record with
           | some v => (v, record)
           | none => (objNull, record))) ∧
      (List.lookup (stripDollar name) vars = none → fields ≠ [] →
        lookup vars fields record name =
          (match List.lookup (stripDollar name) fields with
           | some v => (v, fields)
           | none => (objNull, fields))) := by
  intro vars fields record name
  refine ⟨fun v h => ?_, fun h hf => ?_, fun h hf => ?_⟩
  · simp [lookup, h]
  · subst hf
    simp [lookup, h]
  · have hl : fields.length ≠ 0 := by
      cases fields with
      | nil => exact absurd rfl hf
      | cons a t => simp
    simp [lookup, h, hl]

/-- C5 witness: with a variable `x` bound and a record field `x`
present, the lookup of `$x` strips the dollar and returns the variable,
shadowing the field; and with no variable the field is found; and with
neither, Null. -/
theorem C5_lookup_order_witness :
    lookup [("x", Obj.integer 1)] [] [("x", Obj.integer 2)] "$x" =
      (Obj.integer 1, []) ∧
    lookup [] [] [("x", Obj.integer 2)] "$x" =
      (Obj.integer 2, [("x", Obj.integer 2)]) ∧
    lookup [] [] [] "y" = (objNull, []) := by
  refine ⟨(C5_lookup_order _ _ _ _).1 _ rfl, ?_, ?_⟩
  · have h := (C5_lookup_order [] [] [("x", Obj.integer 2)] "$x").2.1 rfl rfl
    exact h
  · have h := (C5_lookup_order [] [] [] "y").2.1 rfl rfl
    exact h

/-- C6: the `match` builtin splits the haystack's inspect form on
newlines, trims each line with the Go whitespace set, and returns a
Boolean that is true exactly when some trimmed line matches the
compiled pattern; an uncompilable pattern yields Boolean(false).  The
regex engine itself (Go's regexp, outside this repository) is the
abstract parameter `regexCompile`. -/
theorem C6_match_semantics :
    ∀ (ext : Externals) (a b : Obj),
      (ext.regexCompile (Obj.inspect b) = none →
        fnMatch ext [a, b] = .boolean false false) ∧
      (∀ r, ext.regexCompile (Obj.inspect b) = some r →
        fnMatch ext [a, b] =
          .boolean ((goSplitNewline (Obj.inspect a)).any
            (fun s => r (goTrimSpace s))) false ∧
        (fnMatch ext [a, b] = .boolean true false ↔
          ∃ line ∈ goSplitNewline (Obj.inspect a), r (goTrimSpace line) = true)) := by
  intro ext a b
  refine ⟨fun h => ?_, fun r h => ?_⟩
  · simp [fnMatch, h]
  · have heq : fnMatch ext [a, b] =
        .boolean ((goSplitNewline (Obj.inspect a)).any
          (fun s => r (goTrimSpace s))) false := by
      simp only [fnMatch, h]
      cases ha : (goSplitNewline (Obj.inspect a)).any (fun s => r (goTrimSpace s)) <;>
        simp [ha]
    refine ⟨heq, ?_⟩
    rw [heq]
    constructor
    · intro hb
      injection hb with hb₁ hb₂
      simpa [List.any_eq_true] using hb₁
    · intro hex
      have hany : (goSplitNewline (Obj.inspect a)).any (fun s => r (goTrimSpace s)) = true := by
        simpa [List.any_eq_true] using hex
      rw [hany]

/-- C6 witness: a concrete compiler accepting pattern "pat" with
matcher "hit"; the haystack "x\n hit " has a line trimming to "hit". -/
theorem C6_match_semantics_witness :
    fnMatch ext1 [Obj.string (String.mk ['x', '\n', ' ', 'h', 'i', 't', ' ']),
      Obj.string "pat"] = .boolean true false := by
  have h := ((C6_match_semantics ext1
    (Obj.string (String.mk ['x', '\n', ' ', 'h', 'i', 't', ' ']))
    (Obj.string "pat")).2 (fun s => decide (s = "hit")) rfl).1
  rw [h]
  rfl

/-- With none of the five typed dispatch arms applicable, the `OpAnd`
case of `executeBinaryOperation` is reached and short-circuits on
truthiness. -/
theorem executeBinaryOperation_and_nontyped
    (ext : Externals) (funcs : Funcs) (l r : Obj) (h : typedPair l r = false) :
    executeBinaryOperation ext funcs opAnd l r =
      .ok (if Obj.True l then nativeBoolToBooleanObject (Obj.True r) else objFalse) := by
  unfold typedPair at h
  rw [decide_eq_false_iff_not] at h
  have h₁ : ¬(l.type = ObjType.INTEGER ∧ r.type = ObjType.INTEGER) :=
    fun hc => h (Or.inl hc)
  have h₂ : ¬(l.type = ObjType.FLOAT ∧ r.type = ObjType.FLOAT) :=
    fun hc => h (Or.inr (Or.inl hc))
  have h₃ : ¬(l.type = ObjType.FLOAT ∧ r.type = ObjType.INTEGER) :=
    fun hc => h (Or.inr (Or.inr (Or.inl hc)))
  have h₄ : ¬(l.type = ObjType.INTEGER ∧ r.type = ObjType.FLOAT) :=
    fun hc => h (Or.inr (Or.inr (Or.inr (Or.inl hc))))
  have h₅ : ¬(l.type = ObjType.STRING ∧ r.type = ObjType.STRING) :=
    fun hc => h (Or.inr (Or.inr (Or.inr (Or.inr hc))))
  unfold executeBinaryOperation
  rw [if_neg h₁, if_neg h₂, if_neg h₃, if_neg h₄, if_neg h₅, if_pos rfl]
  cases hl : Obj.True l
  · simp
  · cases hr : Obj.True r <;> simp [nativeBoolToBooleanObject]

/-- With none of the five typed dispatch arms applicable, the `OpOr`
case of `executeBinaryOperation` is reached and short-circuits on
truthiness. -/
theorem executeBinaryOperation_or_nontyped
    (ext : Externals) (funcs : Funcs) (l r : Obj) (h : typedPair l r = false) :
    executeBinaryOperation ext funcs opOr l r =
      .ok (if Obj.True l then objTrue else nativeBoolToBooleanObject (Obj.True r)) := by
  unfold typedPair at h
  rw [decide_eq_false_iff_not] at h
  have h₁ : ¬(l.type = ObjType.INTEGER ∧ r.type = ObjType.INTEGER) :=
    fun hc => h (Or.inl hc)
  have h₂ : ¬(l.type = ObjType.FLOAT ∧ r.type = ObjType.FLOAT) :=
    fun hc => h (Or.inr (Or.inl hc))
  have h₃ : ¬(l.type = ObjType.FLOAT ∧ r.type = ObjType.INTEGER) :=
    fun hc => h (Or.inr (Or.inr (Or.inl hc)))
  have h₄ : ¬(l.type = ObjType.INTEGER ∧ r.type = ObjType.FLOAT) :=
    fun hc => h (Or.inr (Or.inr (Or.inr (Or.inl hc))))
  have h₅ : ¬(l.type = ObjType.STRING ∧ r.type = ObjType.STRING) :=
    fun hc => h (Or.inr (Or.inr (Or.inr (Or.inr hc))))
  unfold executeBinaryOperation
  rw [if_neg h₁, if_neg h₂, if_neg h₃, if_neg h₄, if_neg h₅]
  rw [if_neg (by decide : ¬(opOr = opAnd)), if_pos rfl]
  cases hl : Obj.True l
  · cases hr : Obj.True r <;> simp [nativeBoolToBooleanObject]
  · simp

/-- When one of the five typed dispatch arms applies, `OpAnd` and
`OpOr` fall into its default case and yield the unknown-operator
error. -/
theorem executeBinaryOperation_andor_typed
    (ext : Externals) (funcs : Funcs) (l r : Obj) (h : typedPair l r = true)
    (op₁ : Nat) (hop : op₁ = opAnd ∨ op₁ = opOr) :
    executeBinaryOperation ext funcs op₁ l r = .err .unknownOperator := by
  cases l <;> cases r <;> simp only [typedPair, Obj.type, decide_eq_true_eq] at h <;>
    try simp at h
  all_goals
    rcases hop with hop | hop <;> subst hop <;>
      simp [executeBinaryOperation, Obj.type, evalIntegerInfixExpression,
        evalFloatInfixExpression, evalFloatIntegerInfixExpression,
        evalIntegerFloatInfixExpression, evalStringInfixExpression,
        opAdd, opSub, opMul, opDiv, opMod, opPower, opLess, opLessEqual,
        opGreater, opGreaterEqual, opEqual, opNotEqual, opMatches,
        opNotMatches, opAnd, opOr]

/-- C1 counterexample: `AND` / `OR` on operand pairs handled by the
typed dispatch arms — both Integers, both Floats, both Strings, or
mixed Integer/Float — reach those arms first and fail with the
unknown-operator error instead of short-circuiting (both sides of the
integer pair are truthy, so the claim demands canonical True). -/
theorem C1_counterexample :
    executeBinaryOperation ext0 [] opAnd (Obj.integer 1) (Obj.integer 2) =
      .err .unknownOperator ∧
    Obj.True (Obj.integer 1) = true ∧ Obj.True (Obj.integer 2) = true ∧
    executeBinaryOperation ext0 [] opOr (Obj.float 1) (Obj.float 2) =
      .err .unknownOperator ∧
    executeBinaryOperation ext0 [] opAnd (Obj.string "a") (Obj.string "b") =
      .err .unknownOperator ∧
    executeBinaryOperation ext0 [] opAnd (Obj.integer 1) (Obj.float 2) =
      .err .unknownOperator :=
  ⟨rfl, rfl, rfl, rfl, rfl, rfl⟩

/-- C1 amended: the truthiness short-circuit semantics of `AND` / `OR`
(AND pushes canonical False when the left operand is not truthy, else
the right operand's truthiness as a canonical boolean; OR pushes
canonical True when the left operand is truthy, else the right
operand's truthiness) holds exactly for operand pairs outside the five
typed dispatch arms; for pairs inside them — both Integers, both
Floats, Float/Integer, Integer/Float, both Strings — `AND` / `OR`
yield the unknown-operator error. -/
theorem C1_amended :
    ∀ (ext : Externals) (funcs : Funcs) (l r : Obj),
      (typedPair l r = false →
        executeBinaryOperation ext funcs opAnd l r =
          .ok (if Obj.True l then nativeBoolToBooleanObject (Obj.True r) else objFalse) ∧
        executeBinaryOperation ext funcs opOr l r =
          .ok (if Obj.True l then objTrue else nativeBoolToBooleanObject (Obj.True r))) ∧
      (typedPair l r = true →
        executeBinaryOperation ext funcs opAnd l r = .err .unknownOperator ∧
        executeBinaryOperation ext funcs opOr l r = .err .unknownOperator) :=
  fun ext funcs l r =>
    ⟨fun h => ⟨executeBinaryOperation_and_nontyped ext funcs l r h,
      executeBinaryOperation_or_nontyped ext funcs l r h⟩,
     fun h => ⟨executeBinaryOperation_andor_typed ext funcs l r h opAnd (Or.inl rfl),
      executeBinaryOperation_andor_typed ext funcs l r h opOr (Or.inr rfl)⟩⟩

/-- C1 witness: the amended theorem applied at a non-typed pair
(Null and a truthy Integer) and at a typed Integer/Integer pair. -/
theorem C1_amended_witness :
    executeBinaryOperation ext0 [] opAnd objNull (Obj.integer 7) = .ok objFalse ∧
    executeBinaryOperation ext0 [] opOr objNull (Obj.integer 7) = .ok objTrue ∧
    executeBinaryOperation ext0 [] opAnd (Obj.integer 1) (Obj.integer 2) =
      .err .unknownOperator := by
  have h₁ := (C1_amended ext0 [] objNull (Obj.integer 7)).1 rfl
  have h₂ := (C1_amended ext0 [] (Obj.integer 1) (Obj.integer 2)).2 rfl
  refine ⟨?_, ?_, h₂.1⟩
  · rw [h₁.1]; rfl
  · rw [h₁.2]; rfl

/-- C7 counterexample: the inspect-string fallback does not extend
beyond `(Boolean, Boolean)` — `Null == Null` (same types, uncovered)
hits the unknown-operator default although the string comparison of the
inspect forms would push True; and `AND` on two Booleans is handled by
the earlier truthiness short-circuit, not by the string operation
(which would be an unknown-operator error). -/
theorem C7_counterexample :
    executeBinaryOperation ext0 [] opEqual objNull objNull = .err .unknownOperator ∧
    evalStringInfixExpression [] opEqual (.string (Obj.inspect objNull))
      (.string (Obj.inspect objNull)) = .ok objTrue ∧
    executeBinaryOperation ext0 [] opAnd objTrue objFalse = .ok objFalse ∧
    evalStringInfixExpression [] opAnd (.string (Obj.inspect objTrue))
      (.string (Obj.inspect objFalse)) = .err .unknownOperator :=
  ⟨rfl, rfl, rfl, rfl⟩

/-- C7 amended: for Boolean operands and every opcode other than
`AND` / `OR`, the operation is the corresponding string operation on
the operands' inspect forms ("true"/"false"), deterministically — in
particular `false < true` pushes canonical True; `AND` / `OR` on
Booleans are handled by the earlier truthiness arms, and type pairs not
covered by the numeric and string arms yield the unknown-operator error
(same types, e.g. Null/Null or Array/Array) or the type-mismatch error
(different types), not the string fallback. -/
theorem C7_amended :
    (∀ (ext : Externals) (funcs : Funcs) (op₁ : Nat) (lb lc rb rc : Bool),
      op₁ ≠ opAnd → op₁ ≠ opOr →
      executeBinaryOperation ext funcs op₁ (.boolean lb lc) (.boolean rb rc) =
        evalStringInfixExpression funcs op₁
          (.string (Obj.inspect (Obj.boolean lb lc)))
          (.string (Obj.inspect (Obj.boolean rb rc)))) ∧
    (∀ (ext : Externals) (funcs : Funcs) (lc rc : Bool),
      executeBinaryOperation ext funcs opLess (.boolean false lc) (.boolean true rc) =
        .ok objTrue) ∧
    (∀ (ext : Externals) (funcs : Funcs),
      executeBinaryOperation ext funcs opEqual objNull objNull =
        .err .unknownOperator) ∧
    (∀ (ext : Externals) (funcs : Funcs) (es fs : List Obj),
      executeBinaryOperation ext funcs opEqual (.array es) (.array fs) =
        .err .unknownOperator) ∧
    (∀ (ext : Externals) (funcs : Funcs) (b c : Bool) (v : Int),
      executeBinaryOperation ext funcs opEqual (.boolean b c) (.integer v) =
        .err .typeMismatch) := by
  have fallback : ∀ (ext : Externals) (funcs : Funcs) (op₁ : Nat) (lb lc rb rc : Bool),
      op₁ ≠ opAnd → op₁ ≠ opOr →
      executeBinaryOperation ext funcs op₁ (.boolean lb lc) (.boolean rb rc) =
        evalStringInfixExpression funcs op₁
          (.string (Obj.inspect (Obj.boolean lb lc)))
          (.string (Obj.inspect (Obj.boolean rb rc))) := by
    intro ext funcs op₁ lb lc rb rc h₁ h₂
    unfold executeBinaryOperation
    rw [if_neg (fun hc => ObjType.noConfusion hc.1),
      if_neg (fun hc => ObjType.noConfusion hc.1),
      if_neg (fun hc => ObjType.noConfusion hc.1),
      if_neg (fun hc => ObjType.noConfusion hc.1),
      if_neg (fun hc => ObjType.noConfusion hc.1),
      if_neg h₁, if_neg h₂, if_pos ⟨rfl, rfl⟩]
    rfl
  refine ⟨fallback, fun ext funcs lc rc => ?_, fun ext funcs => rfl,
    fun ext funcs es fs => rfl, fun ext funcs b c v => rfl⟩
  rw [fallback ext funcs opLess false lc true rc (by decide) (by decide)]
  rfl

/-- C7 witness: the Boolean fallback conjunct applied at the concrete
opcode `==` with mixed canonical flags. -/
theorem C7_amended_witness :
    executeBinaryOperation ext0 [] opEqual (Obj.boolean true true)
      (Obj.boolean true false) =
    evalStringInfixExpression [] opEqual
      (.string (Obj.inspect (Obj.boolean true true)))
      (.string (Obj.inspect (Obj.boolean true false))) :=
  C7_amended.1 ext0 [] opEqual true true true false (by decide) (by decide)

/-- C8: a run of an empty bytecode program fails with the
empty-program error before executing anything; a RETURN instruction
halts the loop returning the popped stack top; and an instruction
pointer at or past the end of the bytecode fails with the
missing-return error. -/
theorem C8_run_boundaries :
    (∀ (ext : Externals) (fuel : Nat) (st : VMState), st.bytecode = [] →
      Run ext fuel st = .errored .emptyProgram) ∧
    (∀ (ext : Externals) (fuel : Nat) (st : VMState) (ip : Nat) (v : Obj)
      (rest : List Obj),
      st.bytecode.get? ip = some opReturn → st.stack = v :: rest →
      runLoop ext (fuel + 1) st ip = .returned v) ∧
    (∀ (ext : Externals) (fuel : Nat) (st : VMState) (ip : Nat),
      st.bytecode.length ≤ ip → runLoop ext fuel st ip = .errored .missingReturn) := by
  refine ⟨fun ext fuel st h => ?_, fun ext fuel st ip v rest hop hstack => ?_,
    fun ext fuel st ip h => ?_⟩
  · simp [Run, h]
  · obtain ⟨cs, bc, stk, vs, fs, flds, rec⟩ := st
    simp only at hop hstack
    subst hstack
    unfold runLoop
    rw [hop]
    rfl
  · have hn : st.bytecode.get? ip = none := List.get?_eq_none.2 h
    unfold runLoop
    rw [hn]

/-- C8 witness: the boundary conjuncts applied at concrete programs —
an emptied program, a program stopping at RETURN with canonical True on
the stack, and an instruction pointer past the end. -/
theorem C8_run_boundaries_witness :
    Run ext0 0 { returnProg with bytecode := [] } = .errored .emptyProgram ∧
    runLoop ext0 1 returnProg 0 = .returned objTrue ∧
    runLoop ext0 0 returnProg 5 = .errored .missingReturn :=
  ⟨C8_run_boundaries.1 ext0 0 _ rfl,
   C8_run_boundaries.2.1 ext0 0 returnProg 0 objTrue [] rfl rfl,
   C8_run_boundaries.2.2 ext0 0 returnProg 5 (by decide)⟩

/-- A native bool always becomes one of the two canonical Boolean
objects. -/
theorem boolCanon_nativeBool (b : Bool) :
    boolCanon (nativeBoolToBooleanObject b) = true := by
  cases b <;> rfl

/-- Every Boolean the integer arm pushes is canonical. -/
theorem evalIntegerInfix_canon (ext : Externals) (op₁ : Nat) (l r o : Obj)
    (h : evalIntegerInfixExpression ext op₁ l r = .ok o) : boolCanon o = true := by
  unfold evalIntegerInfixExpression at h
  split at h
  case h_1 =>
    by_cases e1 : op₁ = opAdd
    · rw [if_pos e1] at h
      first
      | exact Outcome.noConfusion h
      | (injection h with h; subst h; first | rfl | exact boolCanon_nativeBool _)
    rw [if_neg e1] at h
    by_cases e2 : op₁ = opSub
    · rw [if_pos e2] at h
      first
      | exact Outcome.noConfusion h
      | (injection h with h; subst h; first | rfl | exact boolCanon_nativeBool _)
    rw [if_neg e2] at h
    by_cases e3 : op₁ = opMul
    · rw [if_pos e3] at h
      first
      | exact Outcome.noConfusion h
      | (injection h with h; subst h; first | rfl | exact boolCanon_nativeBool _)
    rw [if_neg e3] at h
    by_cases e4 : op₁ = opDiv
    · rw [if_pos e4] at h
      split at h <;>
        first
        | exact Outcome.noConfusion h
        | (injection h with h; subst h; first | rfl | exact boolCanon_nativeBool _)
    rw [if_neg e4] at h
    by_cases e5 : op₁ = opMod
    · rw [if_pos e5] at h
      split at h <;>
        first
        | exact Outcome.noConfusion h
        | (injection h with h; subst h; first | rfl | exact boolCanon_nativeBool _)
    rw [if_neg e5] at h
    by_cases e6 : op₁ = opPower
    · rw [if_pos e6] at h
      first
      | exact Outcome.noConfusion h
      | (injection h with h; subst h; first | rfl | exact boolCanon_nativeBool _)
    rw [if_neg e6] at h
    by_cases e7 : op₁ = opLess
    · rw [if_pos e7] at h
      first
      | exact Outcome.noConfusion h
      | (injection h with h; subst h; first | rfl | exact boolCanon_nativeBool _)
    rw [if_neg e7] at h
    by_cases e8 : op₁ = opLessEqual
    · rw [if_pos e8] at h
      first
      | exact Outcome.noConfusion h
      | (injection h with h; subst h; first | rfl | exact boolCanon_nativeBool _)
    rw [if_neg e8] at h
    by_cases e9 : op₁ = opGreater
    · rw [if_pos e9] at h
      first
      | exact Outcome.noConfusion h
      | (injection h with h; subst h; first | rfl | exact boolCanon_nativeBool _)
    rw [if_neg e9] at h
    by_cases e10 : op₁ = opGreaterEqual
    · rw [if_pos e10] at h
      first
      | exact Outcome.noConfusion h
      | (injection h with h; subst h; first | rfl | exact boolCanon_nativeBool _)
    rw [if_neg e10] at h
    by_cases e11 : op₁ = opEqual
    · rw [if_pos e11] at h
      first
      | exact Outcome.noConfusion h
      | (injection h with h; subst h; first | rfl | exact boolCanon_nativeBool _)
    rw [if_neg e11] at h
    by_cases e12 : op₁ = opNotEqual
    · rw [if_pos e12] at h
      first
      | exact Outcome.noConfusion h
      | (injection h with h; subst h; first | rfl | exact boolCanon_nativeBool _)
    rw [if_neg e12] at h
    exact Outcome.noConfusion h
  case h_2 => exact Outcome.noConfusion h

/-- Every Boolean the float arm pushes is canonical. -/
theorem evalFloatInfix_canon (ext : Externals) (op₁ : Nat) (l r o : Obj)
    (h : evalFloatInfixExpression ext op₁ l r = .ok o) : boolCanon o = true := by
  unfold evalFloatInfixExpression at h
  split at h
  case h_1 =>
    by_cases e1 : op₁ = opAdd
    · rw [if_pos e1] at h
      first
      | exact Outcome.noConfusion h
      | (injection h with h; subst h; first | rfl | exact boolCanon_nativeBool _)
    rw [if_neg e1] at h
    by_cases e2 : op₁ = opSub
    · rw [if_pos e2] at h
      first
      | exact Outcome.noConfusion h
      | (injection h with h; subst h; first | rfl | exact boolCanon_nativeBool _)
    rw [if_neg e2] at h
    by_cases e3 : op₁ = opMul
    · rw [if_pos e3] at h
      first
      | exact Outcome.noConfusion h
      | (injection h with h; subst h; first | rfl | exact boolCanon_nativeBool _)
    rw [if_neg e3] at h
    by_cases e4 : op₁ = opDiv
    · rw [if_pos e4] at h
      split at h <;>
        first
        | exact Outcome.noConfusion h
        | (injection h with h; subst h; first | rfl | exact boolCanon_nativeBool _)
    rw [if_neg e4] at h
    by_cases e5 : op₁ = opMod
    · rw [if_pos e5] at h
      split at h <;>
        first
        | exact Outcome.noConfusion h
        | (injection h with h; subst h; first | rfl | exact boolCanon_nativeBool _)
    rw [if_neg e5] at h
    by_cases e6 : op₁ = opPower
    · rw [if_pos e6] at h
      first
      | exact Outcome.noConfusion h
      | (injection h with h; subst h; first | rfl | exact boolCanon_nativeBool _)
    rw [if_neg e6] at h
    by_cases e7 : op₁ = opLess
    · rw [if_pos e7] at h
      first
      | exact Outcome.noConfusion h
      | (injection h with h; subst h; first | rfl | exact boolCanon_nativeBool _)
    rw [if_neg e7] at h
    by_cases e8 : op₁ = opLessEqual
    · rw [if_pos e8] at h
      first
      | exact Outcome.noConfusion h
      | (injection h with h; subst h; first | rfl | exact boolCanon_nativeBool _)
    rw [if_neg e8] at h
    by_cases e9 : op₁ = opGreater
    · rw [if_pos e9] at h
      first
      | exact Outcome.noConfusion h
      | (injection h with h; subst h; first | rfl | exact boolCanon_nativeBool _)
    rw [if_neg e9] at h
    by_cases e10 : op₁ = opGreaterEqual
    · rw [if_pos e10] at h
      first
      | exact Outcome.noConfusion h
      | (injection h with h; subst h; first | rfl | exact boolCanon_nativeBool _)
    rw [if_neg e10] at h
    by_cases e11 : op₁ = opEqual
    · rw [if_pos e11] at h
      first
      | exact Outcome.noConfusion h
      | (injection h with h; subst h; first | rfl | exact boolCanon_nativeBool _)
    rw [if_neg e11] at h
    by_cases e12 : op₁ = opNotEqual
    · rw [if_pos e12] at h
      first
      | exact Outcome.noConfusion h
      | (injection h with h; subst h; first | rfl | exact boolCanon_nativeBool _)
    rw [if_neg e12] at h
    exact Outcome.noConfusion h
  case h_2 => exact Outcome.noConfusion h

/-- Every Boolean the float/integer arm pushes is canonical. -/
theorem evalFloatIntegerInfix_canon (ext : Externals) (op₁ : Nat) (l r o : Obj)
    (h : evalFloatIntegerInfixExpression ext op₁ l r = .ok o) : boolCanon o = true := by
  unfold evalFloatIntegerInfixExpression at h
  split at h
  case h_1 =>
    simp only [] at h
    by_cases e1 : op₁ = opAdd
    · rw [if_pos e1] at h
      first
      | exact Outcome.noConfusion h
      | (injection h with h; subst h; first | rfl | exact boolCanon_nativeBool _)
    rw [if_neg e1] at h
    by_cases e2 : op₁ = opSub
    · rw [if_pos e2] at h
      first
      | exact Outcome.noConfusion h
      | (injection h with h; subst h; first | rfl | exact boolCanon_nativeBool _)
    rw [if_neg e2] at h
    by_cases e3 : op₁ = opMul
    · rw [if_pos e3] at h
      first
      | exact Outcome.noConfusion h
      | (injection h with h; subst h; first | rfl | exact boolCanon_nativeBool _)
    rw [if_neg e3] at h
    by_cases e4 : op₁ = opDiv
    · rw [if_pos e4] at h
      split at h <;>
        first
        | exact Outcome.noConfusion h
        | (injection h with h; subst h; first | rfl | exact boolCanon_nativeBool _)
    rw [if_neg e4] at h
    by_cases e5 : op₁ = opMod
    · rw [if_pos e5] at h
      split at h <;>
        first
        | exact Outcome.noConfusion h
        | (injection h with h; subst h; first | rfl | exact boolCanon_nativeBool _)
    rw [if_neg e5] at h
    by_cases e6 : op₁ = opPower
    · rw [if_pos e6] at h
      first
      | exact Outcome.noConfusion h
      | (injection h with h; subst h; first | rfl | exact boolCanon_nativeBool _)
    rw [if_neg e6] at h
    by_cases e7 : op₁ = opLess
    · rw [if_pos e7] at h
      first
      | exact Outcome.noConfusion h
      | (injection h with h; subst h; first | rfl | exact boolCanon_nativeBool _)
    rw [if_neg e7] at h
    by_cases e8 : op₁ = opLessEqual
    · rw [if_pos e8] at h
      first
      | exact Outcome.noConfusion h
      | (injection h with h; subst h; first | rfl | exact boolCanon_nativeBool _)
    rw [if_neg e8] at h
    by_cases e9 : op₁ = opGreater
    · rw [if_pos e9] at h
      first
      | exact Outcome.noConfusion h
      | (injection h with h; subst h; first | rfl | exact boolCanon_nativeBool _)
    rw [if_neg e9] at h
    by_cases e10 : op₁ = opGreaterEqual
    · rw [if_pos e10] at h
      first
      | exact Outcome.noConfusion h
      | (injection h with h; subst h; first | rfl | exact boolCanon_nativeBool _)
    rw [if_neg e10] at h
    by_cases e11 : op₁ = opEqual
    · rw [if_pos e11] at h
      first
      | exact Outcome.noConfusion h
      | (injection h with h; subst h; first | rfl | exact boolCanon_nativeBool _)
    rw [if_neg e11] at h
    by_cases e12 : op₁ = opNotEqual
    · rw [if_pos e12] at h
      first
      | exact Outcome.noConfusion h
      | (injection h with h; subst h; first | rfl | exact boolCanon_nativeBool _)
    rw [if_neg e12] at h
    exact Outcome.noConfusion h
  case h_2 => exact Outcome.noConfusion h

/-- Every Boolean the integer/float arm pushes is canonical. -/
theorem evalIntegerFloatInfix_canon (ext : Externals) (op₁ : Nat) (l r o : Obj)
    (h : evalIntegerFloatInfixExpression ext op₁ l r = .ok o) : boolCanon o = true := by
  unfold evalIntegerFloatInfixExpression at h
  split at h
  case h_1 =>
    simp only [] at h
    by_cases e1 : op₁ = opAdd
    · rw [if_pos e1] at h
      first
      | exact Outcome.noConfusion h
      | (injection h with h; subst h; first | rfl | exact boolCanon_nativeBool _)
    rw [if_neg e1] at h
    by_cases e2 : op₁ = opSub
    · rw [if_pos e2] at h
      first
      | exact Outcome.noConfusion h
      | (injection h with h; subst h; first | rfl | exact boolCanon_nativeBool _)
    rw [if_neg e2] at h
    by_cases e3 : op₁ = opMul
    · rw [if_pos e3] at h
      first
      | exact Outcome.noConfusion h
      | (injection h with h; subst h; first | rfl | exact boolCanon_nativeBool _)
    rw [if_neg e3] at h
    by_cases e4 : op₁ = opDiv
    · rw [if_pos e4] at h
      split at h <;>
        first
        | exact Outcome.noConfusion h
        | (injection h with h; subst h; first | rfl | exact boolCanon_nativeBool _)
    rw [if_neg e4] at h
    by_cases e5 : op₁ = opMod
    · rw [if_pos e5] at h
      split at h <;>
        first
        | exact Outcome.noConfusion h
        | (injection h with h; subst h; first | rfl | exact boolCanon_nativeBool _)
    rw [if_neg e5] at h
    by_cases e6 : op₁ = opPower
    · rw [if_pos e6] at h
      first
      | exact Outcome.noConfusion h
      | (injection h with h; subst h; first | rfl | exact boolCanon_nativeBool _)
    rw [if_neg e6] at h
    by_cases e7 : op₁ = opLess
    · rw [if_pos e7] at h
      first
      | exact Outcome.noConfusion h
      | (injection h with h; subst h; first | rfl | exact boolCanon_nativeBool _)
    rw [if_neg e7] at h
    by_cases e8 : op₁ = opLessEqual
    · rw [if_pos e8] at h
      first
      | exact Outcome.noConfusion h
      | (injection h with h; subst h; first | rfl | exact boolCanon_nativeBool _)
    rw [if_neg e8] at h
    by_cases e9 : op₁ = opGreater
    · rw [if_pos e9] at h
      first
      | exact Outcome.noConfusion h
      | (injection h with h; subst h; first | rfl | exact boolCanon_nativeBool _)
    rw [if_neg e9] at h
    by_cases e10 : op₁ = opGreaterEqual
    · rw [if_pos e10] at h
      first
      | exact Outcome.noConfusion h
      | (injection h with h; subst h; first | rfl | exact boolCanon_nativeBool _)
    rw [if_neg e10] at h
    by_cases e11 : op₁ = opEqual
    · rw [if_pos e11] at h
      first
      | exact Outcome.noConfusion h
      | (injection h with h; subst h; first | rfl | exact boolCanon_nativeBool _)
    rw [if_neg e11] at h
    by_cases e12 : op₁ = opNotEqual
    · rw [if_pos e12] at h
      first
      | exact Outcome.noConfusion h
      | (injection h with h; subst h; first | rfl | exact boolCanon_nativeBool _)
    rw [if_neg e12] at h
    exact Outcome.noConfusion h
  case h_2 => exact Outcome.noConfusion h

/-- Every Boolean the string arm pushes is canonical, including the re-canonicalised results of OpMatches and OpNotMatches. -/
theorem evalStringInfix_canon (funcs : Funcs) (op₁ : Nat) (l r o : Obj)
    (h : evalStringInfixExpression funcs op₁ l r = .ok o) : boolCanon o = true := by
  unfold evalStringInfixExpression at h
  split at h
  case h_1 =>
    by_cases e1 : op₁ = opEqual
    · rw [if_pos e1] at h
      first
      | exact Outcome.noConfusion h
      | (injection h with h; subst h; first | rfl | exact boolCanon_nativeBool _)
    rw [if_neg e1] at h
    by_cases e2 : op₁ = opNotEqual
    · rw [if_pos e2] at h
      first
      | exact Outcome.noConfusion h
      | (injection h with h; subst h; first | rfl | exact boolCanon_nativeBool _)
    rw [if_neg e2] at h
    by_cases e3 : op₁ = opGreaterEqual
    · rw [if_pos e3] at h
      first
      | exact Outcome.noConfusion h
      | (injection h with h; subst h; first | rfl | exact boolCanon_nativeBool _)
    rw [if_neg e3] at h
    by_cases e4 : op₁ = opGreater
    · rw [if_pos e4] at h
      first
      | exact Outcome.noConfusion h
      | (injection h with h; subst h; first | rfl | exact boolCanon_nativeBool _)
    rw [if_neg e4] at h
    by_cases e5 : op₁ = opLessEqual
    · rw [if_pos e5] at h
      first
      | exact Outcome.noConfusion h
      | (injection h with h; subst h; first | rfl | exact boolCanon_nativeBool _)
    rw [if_neg e5] at h
    by_cases e6 : op₁ = opLess
    · rw [if_pos e6] at h
      first
      | exact Outcome.noConfusion h
      | (injection h with h; subst h; first | rfl | exact boolCanon_nativeBool _)
    rw [if_neg e6] at h
    by_cases e7 : op₁ = opMatches
    · rw [if_pos e7] at h
      split at h <;>
        first
        | exact Outcome.noConfusion h
        | (split at h <;>
            first
            | exact Outcome.noConfusion h
            | (injection h with h; subst h; split <;> rfl))
    rw [if_neg e7] at h
    by_cases e8 : op₁ = opNotMatches
    · rw [if_pos e8] at h
      split at h <;>
        first
        | exact Outcome.noConfusion h
        | (split at h <;>
            first
            | exact Outcome.noConfusion h
            | (injection h with h; subst h; split <;> rfl))
    rw [if_neg e8] at h
    by_cases e9 : op₁ = opAdd
    · rw [if_pos e9] at h
      first
      | exact Outcome.noConfusion h
      | (injection h with h; subst h; first | rfl | exact boolCanon_nativeBool _)
    rw [if_neg e9] at h
    exact Outcome.noConfusion h
  case h_2 => exact Outcome.noConfusion h

/-- Every Boolean the Boolean arm pushes is canonical (it delegates to
the string arm). -/
theorem evalBooleanInfix_canon (funcs : Funcs) (op₁ : Nat) (l r o : Obj)
    (h : evalBooleanInfixExpression funcs op₁ l r = .ok o) : boolCanon o = true := by
  unfold evalBooleanInfixExpression at h
  exact evalStringInfix_canon funcs op₁ _ _ o h

/-- Every Boolean pushed by the whole binary-operation dispatcher —
comparisons at every numeric and string type, `AND`/`OR`,
`MATCHES`/`NOT_MATCHES`, the Boolean fallback — is canonical. -/
theorem executeBinaryOperation_canon (ext : Externals) (funcs : Funcs) (op₁ : Nat)
    (l r o : Obj) (h : executeBinaryOperation ext funcs op₁ l r = .ok o) :
    boolCanon o = true := by
  unfold executeBinaryOperation at h
  by_cases c₁ : l.type = ObjType.INTEGER ∧ r.type = ObjType.INTEGER
  · rw [if_pos c₁] at h
    exact evalIntegerInfix_canon ext op₁ l r o h
  rw [if_neg c₁] at h
  by_cases c₂ : l.type = ObjType.FLOAT ∧ r.type = ObjType.FLOAT
  · rw [if_pos c₂] at h
    exact evalFloatInfix_canon ext op₁ l r o h
  rw [if_neg c₂] at h
  by_cases c₃ : l.type = ObjType.FLOAT ∧ r.type = ObjType.INTEGER
  · rw [if_pos c₃] at h
    exact evalFloatIntegerInfix_canon ext op₁ l r o h
  rw [if_neg c₃] at h
  by_cases c₄ : l.type = ObjType.INTEGER ∧ r.type = ObjType.FLOAT
  · rw [if_pos c₄] at h
    exact evalIntegerFloatInfix_canon ext op₁ l r o h
  rw [if_neg c₄] at h
  by_cases c₅ : l.type = ObjType.STRING ∧ r.type = ObjType.STRING
  · rw [if_pos c₅] at h
    exact evalStringInfix_canon funcs op₁ l r o h
  rw [if_neg c₅] at h
  by_cases c₆ : op₁ = opAnd
  · rw [if_pos c₆] at h
    split at h <;>
      first
      | (injection h with h; subst h; rfl)
      | (split at h <;> (injection h with h; subst h; rfl))
  rw [if_neg c₆] at h
  by_cases c₇ : op₁ = opOr
  · rw [if_pos c₇] at h
    split at h <;>
      first
      | (injection h with h; subst h; rfl)
      | (split at h <;> (injection h with h; subst h; rfl))
  rw [if_neg c₇] at h
  by_cases c₈ : l.type = ObjType.BOOLEAN ∧ r.type = ObjType.BOOLEAN
  · rw [if_pos c₈] at h
    exact evalBooleanInfix_canon funcs op₁ l r o h
  rw [if_neg c₈] at h
  by_cases c₉ : l.type ≠ r.type
  · rw [if_pos c₉] at h
    exact Outcome.noConfusion h
  rw [if_neg c₉] at h
  exact Outcome.noConfusion h

/-- C9: every Boolean value the VM itself pushes is one of the two
canonical shared objects — all Booleans produced by the binary-operation
dispatcher (comparisons and equality over integers, floats and strings,
AND/OR, MATCHES/NOT_MATCHES) are canonical, and the TRUE / FALSE
opcodes push exactly the shared True / False globals. -/
theorem C9_canonical_booleans :
    (∀ (ext : Externals) (funcs : Funcs) (op₁ : Nat) (l r o : Obj),
      executeBinaryOperation ext funcs op₁ l r = .ok o → boolCanon o = true) ∧
    (∀ (ext : Externals) (st : VMState) (ip opArg : Nat),
      execStep ext st ip opTrue opArg =
        .next { st with stack := objTrue :: st.stack } (ip + 1) ∧
      execStep ext st ip opFalse opArg =
        .next { st with stack := objFalse :: st.stack } (ip + 1)) :=
  ⟨fun ext funcs op₁ l r o h => executeBinaryOperation_canon ext funcs op₁ l r o h,
   fun ext st ip opArg => ⟨rfl, rfl⟩⟩

/-- C9 witness: the invariant applied at a concrete integer equality,
whose pushed Boolean is the canonical True. -/
theorem C9_canonical_booleans_witness :
    executeBinaryOperation ext0 [] opEqual (Obj.integer 1) (Obj.integer 1) =
      .ok (Obj.boolean true true) ∧
    boolCanon (Obj.boolean true true) = true :=
  ⟨rfl, C9_canonical_booleans.1 ext0 [] opEqual (Obj.integer 1) (Obj.integer 1)
    (Obj.boolean true true) rfl⟩
